/-
Verification of the inventory-management backend (storage layer, product
manager, log manager) against its specification.

Shallow embedding notes:
* A SQLite database state is a `Store`: the rows of the users, products and
  logs tables plus the auto-increment counters (SQLite row ids start at 1).
* Wall-clock ISO-8601 timestamps are sortable text generated at call time;
  they are modelled by a monotone `Nat` clock held in the store, so each
  `add_log` stamps the current clock and advances it.
* `price` is a SQLite REAL; the code only compares it with 0 and stores it,
  so it is modelled as `Int` (no floating-point arithmetic occurs).
* SQLite's default `LIKE` is case-insensitive on the ASCII range and treats
  `%` and `_` as wildcards; `likeMatch` embeds that semantics.
* Python's `in` on strings is literal substring containment (`substrLit`);
  `x.lower() in y.lower()` is `substrCI`.
* `raise ValueError` is modelled with `Except String`; the store component of
  the result is the table state after the call.
-/
import Mathlib

set_option maxHeartbeats 1000000

/-- A row of the products table. -/
structure Product where
  id : Nat
  sku : String
  name : String
  price : Int
  category : String
  stock : Int
  description : String
deriving DecidableEq

/-- A row of the logs table. -/
structure LogEntry where
  id : Nat
  user : String
  timestamp : Nat
  action : String
  details : String
deriving DecidableEq

/-- A row of the users table. -/
structure UserRow where
  id : Nat
  username : String
  password_hash : String
  role : String
deriving DecidableEq

/-- The database state: table contents, auto-increment counters, clock. -/
structure Store where
  users : List UserRow
  products : List Product
  logs : List LogEntry
  nextUserId : Nat
  nextProductId : Nat
  nextLogId : Nat
  clock : Nat
deriving DecidableEq

/-- The state of a freshly created database after the CREATE TABLE
statements ran (all tables empty, auto-increment counters at 1). -/
def emptyStore : Store :=
  { users := [], products := [], logs := [],
    nextUserId := 1, nextProductId := 1, nextLogId := 1, clock := 0 }

/-- ASCII case fold used both by SQLite's default LIKE and (on the ASCII
strings this system stores) by Python's str.lower. -/
def foldChar (c : Char) : Char := c.toLower

/-- Case-insensitive list prefix test. -/
def startsWithCI : List Char → List Char → Bool
  | [], _ => true
  | _ :: _, [] => false
  | c :: cs, x :: xs => (foldChar c == foldChar x) && startsWithCI cs xs

/-- Case-insensitive contiguous-sublist test: Python's
lowered-string containment. -/
def substrCI (sub : List Char) : List Char → Bool
  | [] => startsWithCI sub []
  | x :: xs => startsWithCI sub (x :: xs) || substrCI sub xs

/-- Literal (case-sensitive) list prefix test. -/
def startsWithLit : List Char → List Char → Bool
  | [], _ => true
  | _ :: _, [] => false
  | c :: cs, x :: xs => (c == x) && startsWithLit cs xs

/-- Literal contiguous-sublist test: Python's `sub in s` on strings. -/
def substrLit (sub : List Char) : List Char → Bool
  | [] => startsWithLit sub []
  | x :: xs => startsWithLit sub (x :: xs) || substrLit sub xs

/-- One scanning step of the LIKE matcher against a non-empty subject
`c :: cs`: `rec q` continues matching pattern `q` against `cs`. -/
def likeStep (rec : List Char → Bool) (c : Char) : List Char → Bool
  | [] => false
  | q :: ps =>
    if q = '%' then likeStep rec c ps || rec ('%' :: ps)
    else if q = '_' then rec ps
    else (foldChar q == foldChar c) && rec ps

/-- SQLite default LIKE: `%` matches any (possibly empty) sequence, `_`
matches one character, other characters match ASCII-case-insensitively. -/
def likeMatch : List Char → List Char → Bool
  | p, [] => p.all (fun q => q == '%')
  | p, c :: cs => likeStep (fun q => likeMatch q cs) c p

/-- The pattern the storage layer builds for a search term:
the raw term wrapped in `%…%` (f-string interpolation, no escaping). -/
def likePattern (term : String) : List Char :=
  '%' :: (term.data ++ ['%'])

/-- Insert a log entry into a timestamp-descending list
(ORDER BY timestamp DESC). -/
def insertTsDesc (e : LogEntry) : List LogEntry → List LogEntry
  | [] => [e]
  | x :: xs => if x.timestamp ≤ e.timestamp then e :: x :: xs else x :: insertTsDesc e xs

/-- Sort log rows by timestamp descending (ORDER BY timestamp DESC). -/
def sortTsDesc : List LogEntry → List LogEntry
  | [] => []
  | x :: xs => insertTsDesc x (sortTsDesc xs)

/-- Lexicographic byte-order comparison on text, SQLite's default BINARY
collation (codepoint order coincides with byte order on ASCII). -/
def lexLeChars : List Char → List Char → Bool
  | [], _ => true
  | _ :: _, [] => false
  | c :: cs, x :: xs =>
    if c.toNat < x.toNat then true
    else if x.toNat < c.toNat then false
    else lexLeChars cs xs

/-- Insert a product into a name-ascending list (ORDER BY name). -/
def insertByName (p : Product) : List Product → List Product
  | [] => [p]
  | x :: xs =>
    if lexLeChars p.name.data x.name.data then p :: x :: xs
    else x :: insertByName p xs

/-- Sort product rows by name ascending (ORDER BY name). -/
def sortByName : List Product → List Product
  | [] => []
  | x :: xs => insertByName x (sortByName xs)

/-- StorageManager.add_product: INSERT INTO products; the UNIQUE
constraint on sku surfaces as an engine error; returns lastrowid. -/
def StorageManager.addProduct (st : Store) (sku name : String) (price : Int)
    (category : String) (stock : Int) (description : String) :
    Except String (Nat × Store) :=
  if st.products.any (fun q => q.sku == sku) then
    .error "UNIQUE constraint failed: products.sku"
  else
    .ok (st.nextProductId,
      { st with
        products := st.products ++
          [⟨st.nextProductId, sku, name, price, category, stock, description⟩],
        nextProductId := st.nextProductId + 1 })

/-- StorageManager.get_product_by_sku: SELECT * FROM products WHERE sku = ?,
first row or None. -/
def StorageManager.getProductBySku (st : Store) (sku : String) : Option Product :=
  st.products.find? (fun p => p.sku == sku)

/-- StorageManager.get_product_by_id: SELECT * FROM products WHERE id = ?,
first row or None. -/
def StorageManager.getProductById (st : Store) (productId : Nat) : Option Product :=
  st.products.find? (fun p => p.id == productId)

/-- StorageManager.get_all_products: SELECT * FROM products ORDER BY name. -/
def StorageManager.getAllProducts (st : Store) : List Product :=
  sortByName st.products

/-- StorageManager.search_products: WHERE name LIKE ? OR sku LIKE ? OR
category LIKE ? ORDER BY name, with pattern `%term%`. -/
def StorageManager.searchProducts (st : Store) (term : String) : List Product :=
  sortByName (st.products.filter (fun p =>
    likeMatch (likePattern term) p.name.data ||
    likeMatch (likePattern term) p.sku.data ||
    likeMatch (likePattern term) p.category.data))

/-- StorageManager.add_log: INSERT INTO logs with the current wall-clock
timestamp; returns lastrowid. -/
def StorageManager.addLog (st : Store) (user action details : String) : Nat × Store :=
  (st.nextLogId,
    { st with
      logs := st.logs ++ [⟨st.nextLogId, user, st.clock, action, details⟩],
      nextLogId := st.nextLogId + 1,
      clock := st.clock + 1 })

/-- StorageManager.get_logs: SELECT * FROM logs ORDER BY timestamp DESC
LIMIT ?. -/
def StorageManager.getLogs (st : Store) (limit : Nat) : List LogEntry :=
  (sortTsDesc st.logs).take limit

/-- StorageManager._seed_admin_user: insert the default admin row iff the
users table is empty. The cryptographic digest (hashlib.sha256 hexdigest) is
abstracted as a function parameter `hash`; the code determines only its
input: the literal password "admin123" concatenated with the fixed salt. -/
def StorageManager.seedAdminUser (hash : String → String) (st : Store) : Store :=
  if st.users.length = 0 then
    { st with
      users := st.users ++
        [⟨st.nextUserId, "admin", hash ("admin123" ++ "ims_secure_salt_2025"), "admin"⟩],
      nextUserId := st.nextUserId + 1 }
  else st

/-- StorageManager.__init__ on a fresh database file: create the tables
(CREATE TABLE IF NOT EXISTS) then seed the admin user. -/
def StorageManager.init (hash : String → String) : Store :=
  StorageManager.seedAdminUser hash emptyStore

/-- LogManager.log_action: forwards to storage add_log. -/
def LogManager.logAction (st : Store) (user action details : String) : Store :=
  (StorageManager.addLog st user action details).2

/-- LogManager.get_recent_logs: forwards to storage get_logs. -/
def LogManager.getRecentLogs (st : Store) (limit : Nat) : List LogEntry :=
  StorageManager.getLogs st limit

/-- LogManager.get_logs_by_user: fetch limit*2 recent logs, keep exact
username matches, truncate to limit. -/
def LogManager.getLogsByUser (st : Store) (username : String) (limit : Nat) :
    List LogEntry :=
  ((LogManager.getRecentLogs st (limit * 2)).filter
    (fun l => l.user == username)).take limit

/-- LogManager.get_logs_by_action: fetch limit*2 recent logs, keep entries
whose lowered action contains the lowered query action, truncate to limit. -/
def LogManager.getLogsByAction (st : Store) (action : String) (limit : Nat) :
    List LogEntry :=
  ((LogManager.getRecentLogs st (limit * 2)).filter
    (fun l => substrCI action.data l.action.data)).take limit

/-- ProductManager.add_product: duplicate-SKU lookup, then validation, then
insert plus one audit log entry. The first component is the Python return
value or raised ValueError; the second is the store after the call. -/
def ProductManager.addProduct (st : Store) (sku name : String) (price : Int)
    (category : String) (stock : Int) (description user : String) :
    Except String (Option Nat) × Store :=
  match StorageManager.getProductBySku st sku with
  | some _ => (.ok none, st)
  | none =>
    if price < 0 then (.error "Price cannot be negative", st)
    else if stock < 0 then (.error "Stock cannot be negative", st)
    else
      match StorageManager.addProduct st sku name price category stock description with
      | .error e => (.error e, st)
      | .ok (pid, st1) =>
        (.ok (some pid),
          LogManager.logAction st1 user "ADD_PRODUCT"
            ("Added product: " ++ name ++ " (SKU: " ++ sku ++ ")"))

/-- ProductManager.search_products delegates to storage. -/
def ProductManager.searchProducts (st : Store) (term : String) : List Product :=
  StorageManager.searchProducts st term

/-! ### Helper lemmas -/

/-- A failed find? makes the scan continue into the appended tail. -/
lemma find?_append_of_none {α : Type} (p : α → Bool) (l₁ l₂ : List α)
    (h : l₁.find? p = none) : (l₁ ++ l₂).find? p = l₂.find? p := by
  induction l₁ with
  | nil => rfl
  | cons x xs ih =>
    rw [List.find?_cons] at h
    cases hx : p x with
    | true => rw [hx] at h; simp at h
    | false =>
      rw [hx] at h
      simpa [List.find?_cons, hx] using ih h

/-- A failed find? means no element satisfies the predicate, so any is false. -/
lemma any_eq_false_of_find?_none {α : Type} (p : α → Bool) (l : List α)
    (h : l.find? p = none) : l.any p = false := by
  rw [List.find?_eq_none] at h
  simp only [List.any_eq_false]
  intro x hx
  simp [h x hx]

/-- Inserting an entry whose timestamp beats the head of a list keeps it in
front. -/
lemma sortTsDesc_append_max (l : List LogEntry) (e : LogEntry)
    (h : ∀ x ∈ l, x.timestamp < e.timestamp) :
    sortTsDesc (l ++ [e]) = e :: sortTsDesc l := by
  induction l with
  | nil => rfl
  | cons x xs ih =>
    have hx : x.timestamp < e.timestamp := h x (by simp)
    have hxs : ∀ y ∈ xs, y.timestamp < e.timestamp := fun y hy => h y (by simp [hy])
    show insertTsDesc x (sortTsDesc (xs ++ [e])) = e :: insertTsDesc x (sortTsDesc xs)
    rw [ih hxs]
    simp only [insertTsDesc]
    rw [if_neg (by omega)]

/-- A list is a literal prefix of itself followed by anything. -/
lemma startsWithLit_self_append (s t : List Char) :
    startsWithLit s (s ++ t) = true := by
  induction s with
  | nil => rfl
  | cons c cs ih => simp [startsWithLit, ih]

/-- Containment of a prefix implies containment. -/
lemma substrLit_of_startsWithLit (s l : List Char)
    (h : startsWithLit s l = true) : substrLit s l = true := by
  cases l with
  | nil => simpa [substrLit] using h
  | cons x xs => simp [substrLit, h]

/-- Containment is preserved by prepending. -/
lemma substrLit_append_left (s a l : List Char)
    (h : substrLit s l = true) : substrLit s (a ++ l) = true := by
  induction a with
  | nil => simpa using h
  | cons c cs ih => simp [substrLit, ih]

/-- Scanning one subject character and continuing is exactly matching
against the subject's tail. -/
lemma likeStep_eq_likeMatch (c : Char) (cs p : List Char) :
    likeStep (fun q => likeMatch q cs) c p = likeMatch p (c :: cs) := rfl

/-- The pattern consisting of a single `%` matches every subject. -/
lemma likeMatch_percent (s : List Char) : likeMatch ['%'] s = true := by
  induction s with
  | nil => rfl
  | cons c cs ih => simp [likeMatch, likeStep, ih]

/-- A term free of the LIKE metacharacters. -/
def NoLikeMeta (l : List Char) : Prop := ∀ c ∈ l, c ≠ '%' ∧ c ≠ '_'

/-- A metacharacter-free pattern followed by `%` matches exactly the
subjects it case-insensitively starts. -/
lemma likeMatch_lit_append_percent (ts : List Char) (h : NoLikeMeta ts) :
    ∀ s, likeMatch (ts ++ ['%']) s = startsWithCI ts s := by
  induction ts with
  | nil => intro s; simpa [startsWithCI] using likeMatch_percent s
  | cons q qs ih =>
    intro s
    obtain ⟨hq1, hq2⟩ := h q (by simp)
    have hqs : NoLikeMeta qs := fun c hc => h c (by simp [hc])
    cases s with
    | nil => simp [likeMatch, startsWithCI, hq1]
    | cons c cs => simp [likeMatch, likeStep, hq1, hq2, startsWithCI, ih hqs]

/-- For a metacharacter-free term, the `%term%` pattern matches exactly the
subjects containing the term case-insensitively. -/
lemma likeMatch_wrap (ts : List Char) (h : NoLikeMeta ts) :
    ∀ s, likeMatch ('%' :: (ts ++ ['%'])) s = substrCI ts s := by
  intro s
  induction s with
  | nil =>
    cases ts with
    | nil => rfl
    | cons q qs =>
      obtain ⟨hq1, _⟩ := h q (by simp)
      simp [likeMatch, substrCI, startsWithCI, hq1]
  | cons c cs ih =>
    have e1 : likeMatch ('%' :: (ts ++ ['%'])) (c :: cs)
        = (likeMatch (ts ++ ['%']) (c :: cs) || likeMatch ('%' :: (ts ++ ['%'])) cs) := by
      show likeStep (fun q => likeMatch q cs) c ('%' :: (ts ++ ['%'])) = _
      simp [likeStep, likeStep_eq_likeMatch]
    rw [e1, likeMatch_lit_append_percent ts h, ih]
    simp [substrCI]

/-! ### Claims -/

/-- A store already holding a product with SKU "X1", used as the C1 witness
state. -/
def c1Store : Store :=
  { emptyStore with
    products := [⟨1, "X1", "Old gadget", 5, "Gadgets", 2, "old"⟩],
    nextProductId := 2 }

/-- C1: if the store already holds a product with SKU `sku`, then
`ProductManager.add_product` returns None and leaves the store unchanged
(no product row, no log entry), raising no error for any price and stock —
in particular negative ones — because the duplicate-SKU lookup precedes
validation. -/
theorem claim_C1 (st : Store) (sku name : String) (price : Int)
    (category : String) (stock : Int) (description user : String)
    (h : (StorageManager.getProductBySku st sku).isSome = true) :
    ProductManager.addProduct st sku name price category stock description user
      = (.ok none, st) := by
  unfold ProductManager.addProduct
  cases hf : StorageManager.getProductBySku st sku with
  | none => rw [hf] at h; simp at h
  | some p => rfl

/-- C1 witness: a duplicate SKU with negative price and stock still returns
None and leaves the concrete store untouched. -/
theorem claim_C1_witness :
    (StorageManager.getProductBySku c1Store "X1").isSome = true ∧
    ProductManager.addProduct c1Store "X1" "New gadget" (-5) "Gadgets" (-3) "" "alice"
      = (.ok none, c1Store) :=
  ⟨by decide,
   claim_C1 c1Store "X1" "New gadget" (-5) "Gadgets" (-3) "" "alice" (by decide)⟩

/-- C2: with no product of the given SKU present, a negative price or a
negative stock raises ValueError and the store after the call is exactly the
store before it. -/
theorem claim_C2 (st : Store) (sku name : String) (price : Int)
    (category : String) (stock : Int) (description user : String)
    (hsku : StorageManager.getProductBySku st sku = none)
    (hbad : price < 0 ∨ stock < 0) :
    ∃ msg, ProductManager.addProduct st sku name price category stock description user
      = (.error msg, st) := by
  unfold ProductManager.addProduct
  rw [hsku]
  rcases hbad with hp | hs
  · exact ⟨"Price cannot be negative", by simp [hp]⟩
  · by_cases hp : price < 0
    · exact ⟨"Price cannot be negative", by simp [hp]⟩
    · exact ⟨"Stock cannot be negative", by simp [hp, hs]⟩

/-- C2 witness: price -1 on a fresh store raises and writes nothing. -/
theorem claim_C2_witness :
    StorageManager.getProductBySku emptyStore "A1" = none ∧
    ∃ msg, ProductManager.addProduct emptyStore "A1" "Thing" (-1) "Misc" 0 "" "bob"
      = (.error msg, emptyStore) :=
  ⟨rfl,
   claim_C2 emptyStore "A1" "Thing" (-1) "Misc" 0 "" "bob" rfl (Or.inl (by decide))⟩

/-- C3 round-trip: on a store without the SKU and with valid price and
stock, add_product succeeds and get_product_by_sku returns a product whose
sku, name, price, category, stock and description equal the inputs. -/
theorem claim_C3 (st : Store) (sku name : String) (price : Int)
    (category : String) (stock : Int) (description user : String)
    (hsku : StorageManager.getProductBySku st sku = none)
    (hp : 0 ≤ price) (hs : 0 ≤ stock) :
    ∃ pid st',
      ProductManager.addProduct st sku name price category stock description user
        = (.ok (some pid), st') ∧
      StorageManager.getProductBySku st' sku
        = some ⟨pid, sku, name, price, category, stock, description⟩ := by
  have hfind : st.products.find? (fun p => p.sku == sku) = none := hsku
  have hany : st.products.any (fun q => q.sku == sku) = false :=
    any_eq_false_of_find?_none _ _ hfind
  have hp' : ¬ price < 0 := not_lt.mpr hp
  have hs' : ¬ stock < 0 := not_lt.mpr hs
  refine ⟨st.nextProductId,
    { st with
      products := st.products ++
        [⟨st.nextProductId, sku, name, price, category, stock, description⟩],
      nextProductId := st.nextProductId + 1,
      logs := st.logs ++
        [⟨st.nextLogId, user, st.clock, "ADD_PRODUCT",
          "Added product: " ++ name ++ " (SKU: " ++ sku ++ ")"⟩],
      nextLogId := st.nextLogId + 1,
      clock := st.clock + 1 }, ?_, ?_⟩
  · simp [ProductManager.addProduct, hsku, hp', hs',
      StorageManager.addProduct, hany, LogManager.logAction, StorageManager.addLog]
  · show (st.products ++
        [(⟨st.nextProductId, sku, name, price, category, stock, description⟩ : Product)]).find?
        (fun p => p.sku == sku) = _
    rw [find?_append_of_none _ _ _ hfind]
    simp [List.find?]

/-- C3 witness: round-trip at a concrete fresh store. -/
theorem claim_C3_witness :
    StorageManager.getProductBySku emptyStore "A1" = none ∧
    (0 : Int) ≤ 19 ∧ (0 : Int) ≤ 3 ∧
    ∃ pid st',
      ProductManager.addProduct emptyStore "A1" "Desk Lamp" 19 "Lighting" 3 "LED" "carol"
        = (.ok (some pid), st') ∧
      StorageManager.getProductBySku st' "A1"
        = some ⟨pid, "A1", "Desk Lamp", 19, "Lighting", 3, "LED"⟩ :=
  ⟨rfl, by decide, by decide,
   claim_C3 emptyStore "A1" "Desk Lamp" 19 "Lighting" 3 "LED" "carol" rfl
     (by decide) (by decide)⟩

/-- Well-formedness of a database state with respect to the wall clock:
every stored log entry was stamped strictly before the current clock
value (wall-clock timestamps only move forward between calls). -/
def Store.ClockWF (st : Store) : Prop :=
  ∀ e ∈ st.logs, e.timestamp < st.clock

/-- C4: a successful add_product appends exactly one audit log entry, and
get_recent_logs 1 immediately afterwards returns exactly that entry, whose
action is "ADD_PRODUCT", whose user is the caller-supplied user, and whose
details contain the product name and the SKU. -/
theorem claim_C4 (st st' : Store) (sku name : String) (price : Int)
    (category : String) (stock : Int) (description user : String) (pid : Nat)
    (hwf : Store.ClockWF st)
    (h : ProductManager.addProduct st sku name price category stock description user
      = (.ok (some pid), st')) :
    ∃ e : LogEntry,
      st'.logs = st.logs ++ [e] ∧
      LogManager.getRecentLogs st' 1 = [e] ∧
      e.action = "ADD_PRODUCT" ∧ e.user = user ∧
      substrLit name.data e.details.data = true ∧
      substrLit sku.data e.details.data = true := by
  unfold ProductManager.addProduct at h
  cases hf : StorageManager.getProductBySku st sku with
  | some p => rw [hf] at h; simp at h
  | none =>
    rw [hf] at h
    by_cases hp : price < 0
    · rw [if_pos hp] at h; exact absurd h (by simp)
    rw [if_neg hp] at h
    by_cases hs : stock < 0
    · rw [if_pos hs] at h; exact absurd h (by simp)
    rw [if_neg hs] at h
    unfold StorageManager.addProduct at h
    by_cases hany : st.products.any (fun q => q.sku == sku) = true
    · rw [if_pos hany] at h; exact absurd h (by simp)
    rw [if_neg hany] at h
    unfold LogManager.logAction StorageManager.addLog at h
    simp only [Prod.mk.injEq, Except.ok.injEq, Option.some.injEq] at h
    obtain ⟨hpid, hst⟩ := h
    refine ⟨⟨st.nextLogId, user, st.clock, "ADD_PRODUCT",
      "Added product: " ++ name ++ " (SKU: " ++ sku ++ ")"⟩, ?_, ?_, rfl, rfl, ?_, ?_⟩
    · rw [← hst]
    · rw [← hst]
      unfold LogManager.getRecentLogs StorageManager.getLogs
      show (sortTsDesc (st.logs ++ [_])).take 1 = _
      rw [sortTsDesc_append_max st.logs _ (fun x hx => hwf x hx)]
      rfl
    · show substrLit name.data
        ("Added product: " ++ name ++ " (SKU: " ++ sku ++ ")").data = true
      simp only [String.data_append, List.append_assoc]
      exact substrLit_append_left _ _ _
        (substrLit_of_startsWithLit _ _ (startsWithLit_self_append name.data _))
    · show substrLit sku.data
        ("Added product: " ++ name ++ " (SKU: " ++ sku ++ ")").data = true
      simp only [String.data_append, List.append_assoc]
      exact substrLit_append_left _ _ _ (substrLit_append_left _ _ _
        (substrLit_append_left _ _ _
          (substrLit_of_startsWithLit _ _ (startsWithLit_self_append sku.data _))))

/-- The concrete store produced by the C4 witness call. -/
def c4After : Store :=
  { users := [], products := [⟨1, "A1", "Lamp", 2, "Lighting", 1, "LED"⟩],
    logs := [⟨1, "dave", 0, "ADD_PRODUCT", "Added product: Lamp (SKU: A1)"⟩],
    nextUserId := 1, nextProductId := 2, nextLogId := 2, clock := 1 }

/-- C4 witness: the audit-entry guarantee at a concrete call. -/
theorem claim_C4_witness :
    Store.ClockWF emptyStore ∧
    ProductManager.addProduct emptyStore "A1" "Lamp" 2 "Lighting" 1 "LED" "dave"
      = (.ok (some 1), c4After) ∧
    ∃ e : LogEntry,
      c4After.logs = emptyStore.logs ++ [e] ∧
      LogManager.getRecentLogs c4After 1 = [e] ∧
      e.action = "ADD_PRODUCT" ∧ e.user = "dave" ∧
      substrLit "Lamp".data e.details.data = true ∧
      substrLit "A1".data e.details.data = true := by
  have hwf : Store.ClockWF emptyStore := by
    intro e he
    simp [emptyStore] at he
  have heq : ProductManager.addProduct emptyStore "A1" "Lamp" 2 "Lighting" 1 "LED" "dave"
      = (.ok (some 1), c4After) := rfl
  exact ⟨hwf, heq,
    claim_C4 emptyStore c4After "A1" "Lamp" 2 "Lighting" 1 "LED" "dave" 1 hwf heq⟩

/-- C5: storage initialization on a fresh database seeds exactly one user
row — username "admin", role "admin", password hash computed from the
literal password "admin123" concatenated with the fixed salt — and the seed
step runs only when the users table is empty, so re-initializing is
idempotent and adds no second row. -/
theorem claim_C5 (hash : String → String) :
    (StorageManager.init hash).users
      = [⟨1, "admin", hash ("admin123" ++ "ims_secure_salt_2025"), "admin"⟩] ∧
    StorageManager.seedAdminUser hash (StorageManager.init hash)
      = StorageManager.init hash ∧
    ∀ st : Store, st.users ≠ [] → StorageManager.seedAdminUser hash st = st := by
  refine ⟨rfl, rfl, ?_⟩
  intro st h
  unfold StorageManager.seedAdminUser
  rw [if_neg (by simpa [List.length_eq_zero] using h)]

/-- A store whose users table already has a row, for the C5 witness. -/
def c5Store : Store :=
  { emptyStore with users := [⟨1, "root", "somehash", "admin"⟩], nextUserId := 2 }

/-- C5 witness: seeding a store that already has a user changes nothing. -/
theorem claim_C5_witness :
    c5Store.users ≠ [] ∧
    StorageManager.seedAdminUser (fun s => s) c5Store = c5Store :=
  ⟨by decide, (claim_C5 (fun s => s)).2.2 c5Store (by decide)⟩

/-- The store states reachable through ProductManager operations starting
from a freshly initialized database (the read and search operations do not
change the store; add_product is the only mutator). -/
inductive PMReachable (hash : String → String) : Store → Prop where
  | init : PMReachable hash (StorageManager.init hash)
  | add (st : Store) (sku name : String) (price : Int) (category : String)
      (stock : Int) (description user : String) : PMReachable hash st →
      PMReachable hash
        (ProductManager.addProduct st sku name price category stock description user).2

/-- The product-table invariant: pairwise-distinct SKUs, no negative price,
no negative stock. -/
def ProductsInv (st : Store) : Prop :=
  st.products.Pairwise (fun a b => a.sku ≠ b.sku) ∧
  ∀ p ∈ st.products, 0 ≤ p.price ∧ 0 ≤ p.stock

/-- One add_product call preserves the product-table invariant. -/
lemma addProduct_preserves_inv (st : Store) (sku name : String) (price : Int)
    (category : String) (stock : Int) (description user : String)
    (ih : ProductsInv st) :
    ProductsInv
      (ProductManager.addProduct st sku name price category stock description user).2 := by
  unfold ProductManager.addProduct
  cases hf : StorageManager.getProductBySku st sku with
  | some p => exact ih
  | none =>
    by_cases hp : price < 0
    · rw [if_pos hp]; exact ih
    rw [if_neg hp]
    by_cases hs : stock < 0
    · rw [if_pos hs]; exact ih
    rw [if_neg hs]
    unfold StorageManager.addProduct
    by_cases hany : st.products.any (fun q => q.sku == sku) = true
    · rw [if_pos hany]; exact ih
    rw [if_neg hany]
    have hall : ∀ a ∈ st.products, a.sku ≠ sku := by
      intro a ha hEq
      exact hany (List.any_eq_true.mpr ⟨a, ha, by simp [hEq]⟩)
    constructor
    · show (st.products ++
        [(⟨st.nextProductId, sku, name, price, category, stock, description⟩ :
          Product)]).Pairwise (fun a b => a.sku ≠ b.sku)
      rw [List.pairwise_append]
      refine ⟨ih.1, by simp, ?_⟩
      intro a ha b hb
      simp only [List.mem_singleton] at hb
      subst hb
      exact hall a ha
    · intro p hp'
      rcases List.mem_append.mp hp' with h1 | h2
      · exact ih.2 p h1
      · simp only [List.mem_singleton] at h2
        subst h2
        exact ⟨not_lt.mp hp, not_lt.mp hs⟩

/-- C6: in every store reachable through ProductManager from a fresh
database, product SKUs are pairwise distinct and price and stock are never
negative. -/
theorem claim_C6 (hash : String → String) (st : Store)
    (h : PMReachable hash st) : ProductsInv st := by
  induction h with
  | init =>
    constructor
    · exact List.Pairwise.nil
    · intro p hp
      simp [StorageManager.init, StorageManager.seedAdminUser, emptyStore] at hp
  | add st sku name price category stock description user hprev ih =>
    exact addProduct_preserves_inv st sku name price category stock description user ih

/-- C6 witness: the invariant holds at the freshly initialized store. -/
theorem claim_C6_witness : ProductsInv (StorageManager.init (fun s => s)) :=
  claim_C6 (fun s => s) _ PMReachable.init

/-- A log state with two old "alice" entries hidden behind two newer "bob"
entries, exhibiting the under-return of the windowed filter. -/
def c7Store : Store :=
  { emptyStore with
    logs := [⟨1, "alice", 0, "LOGIN", ""⟩, ⟨2, "alice", 1, "LOGIN", ""⟩,
             ⟨3, "bob", 2, "LOGIN", ""⟩, ⟨4, "bob", 3, "LOGIN", ""⟩],
    nextLogId := 5, clock := 4 }

/-- C7: get_logs_by_user takes the 2×L most recent entries (timestamp
descending), keeps the exact username matches, truncates to L — and on a
concrete state it returns fewer matches than exist in the full log. -/
theorem claim_C7 :
    (∀ (st : Store) (u : String) (L : Nat),
      LogManager.getLogsByUser st u L
        = (((sortTsDesc st.logs).take (2 * L)).filter (fun l => l.user == u)).take L) ∧
    (LogManager.getLogsByUser c7Store "alice" 1 = [] ∧
      1 < (c7Store.logs.filter (fun l => l.user == "alice")).length) := by
  constructor
  · intro st u L
    simp [LogManager.getLogsByUser, LogManager.getRecentLogs, StorageManager.getLogs,
      Nat.mul_comm]
  · exact ⟨by decide, by decide⟩

/-- A log state with mixed-case action names for the C8 demonstration. -/
def c8Store : Store :=
  { emptyStore with
    logs := [⟨1, "erin", 0, "ADD_PRODUCT", ""⟩, ⟨2, "erin", 1, "DELETE_PRODUCT", ""⟩,
             ⟨3, "erin", 2, "LOGIN", ""⟩],
    nextLogId := 4, clock := 3 }

/-- C8: get_logs_by_action takes the 2×L most recent entries, keeps those
whose stored action contains the query action as a case-insensitive
substring, truncates to L; concretely, the lowercase query "product"
matches the upper-case ADD_PRODUCT and DELETE_PRODUCT actions. -/
theorem claim_C8 :
    (∀ (st : Store) (action : String) (L : Nat),
      LogManager.getLogsByAction st action L
        = (((sortTsDesc st.logs).take (2 * L)).filter
            (fun l => substrCI action.data l.action.data)).take L) ∧
    LogManager.getLogsByAction c8Store "product" 10
      = [⟨2, "erin", 1, "DELETE_PRODUCT", ""⟩, ⟨1, "erin", 0, "ADD_PRODUCT", ""⟩] := by
  constructor
  · intro st a L
    simp [LogManager.getLogsByAction, LogManager.getRecentLogs, StorageManager.getLogs,
      Nat.mul_comm]
  · decide

/-- The claim's predicate, as stated: the products whose name, SKU or
category contain the term as a literal substring, ordered by name. -/
def specSearchLit (st : Store) (term : String) : List Product :=
  sortByName (st.products.filter (fun p =>
    substrLit term.data p.name.data || substrLit term.data p.sku.data ||
    substrLit term.data p.category.data))

/-- The amended predicate: the products whose name, SKU or category contain
the term as an ASCII-case-insensitive substring, ordered by name. -/
def specSearchCI (st : Store) (term : String) : List Product :=
  sortByName (st.products.filter (fun p =>
    substrCI term.data p.name.data || substrCI term.data p.sku.data ||
    substrCI term.data p.category.data))

/-- A one-product store on which the wildcard term "%" matches everything. -/
def c9Store : Store :=
  { emptyStore with
    products := [⟨1, "W1", "Widget", 10, "Tools", 5, ""⟩],
    nextProductId := 2 }

/-- C9 counterexample: for the term "%", search_products returns the product
"Widget" even though "%" is not a substring of any of its fields, so the
claimed literal-substring characterization fails. -/
theorem claim_C9_counterexample :
    StorageManager.searchProducts c9Store "%"
      = [⟨1, "W1", "Widget", 10, "Tools", 5, ""⟩] ∧
    specSearchLit c9Store "%" = [] ∧
    StorageManager.searchProducts c9Store "%" ≠ specSearchLit c9Store "%" := by
  exact ⟨by decide, by decide, by decide⟩

/-- The three-product store of the claim's Laptop example. -/
def laptopStore : Store :=
  { emptyStore with
    products := [⟨1, "SKU-G", "Gaming Laptop", 1500, "Computers", 5, ""⟩,
                 ⟨2, "SKU-B", "Business Laptop", 1200, "Computers", 7, ""⟩,
                 ⟨3, "SKU-M", "Wireless Mouse", 25, "Accessories", 50, ""⟩],
    nextProductId := 4 }

/-- C9 (amended): for every term free of the LIKE metacharacters % and _,
search_products returns exactly the products for which the term appears as
an ASCII-case-insensitive substring of the name, the SKU or the category,
ordered by name ascending; in particular SearchProducts "Laptop" over the
two laptops plus one unrelated product returns exactly the two laptop
products in name order. -/
theorem claim_C9 :
    (∀ (st : Store) (term : String), NoLikeMeta term.data →
      StorageManager.searchProducts st term = specSearchCI st term) ∧
    StorageManager.searchProducts laptopStore "Laptop"
      = [⟨2, "SKU-B", "Business Laptop", 1200, "Computers", 7, ""⟩,
         ⟨1, "SKU-G", "Gaming Laptop", 1500, "Computers", 5, ""⟩] := by
  constructor
  · intro st term h
    unfold StorageManager.searchProducts specSearchCI likePattern
    congr 1
    apply List.filter_congr
    intro p hp
    rw [likeMatch_wrap term.data h, likeMatch_wrap term.data h,
      likeMatch_wrap term.data h]
  · decide

instance (l : List Char) : Decidable (NoLikeMeta l) :=
  inferInstanceAs (Decidable (∀ c ∈ l, c ≠ '%' ∧ c ≠ '_'))

/-- C9 witness: the amended equation at a concrete store and term. -/
theorem claim_C9_witness :
    NoLikeMeta "idge".data ∧
    StorageManager.searchProducts c9Store "idge" = specSearchCI c9Store "idge" :=
  ⟨by decide, claim_C9.1 c9Store "idge" (by decide)⟩

/-- A two-product store in which no field contains a percent sign. -/
def c10Store : Store :=
  { emptyStore with
    products := [⟨1, "K1", "Keyboard", 45, "Accessories", 12, ""⟩,
                 ⟨2, "M2", "Monitor", 250, "Displays", 4, ""⟩],
    nextProductId := 3 }

/-- C10: the raw term is embedded in a LIKE pattern, so the term "%" acts
as a wildcard: search_products returns every product in the store even
though no field of any product literally contains "%". -/
theorem claim_C10 :
    StorageManager.searchProducts c10Store "%"
      = [⟨1, "K1", "Keyboard", 45, "Accessories", 12, ""⟩,
         ⟨2, "M2", "Monitor", 250, "Displays", 4, ""⟩] ∧
    c10Store.products.all (fun p =>
      !(substrLit "%".data p.name.data || substrLit "%".data p.sku.data ||
        substrLit "%".data p.category.data)) = true := by
  exact ⟨by decide, by decide⟩
